import Mathlib

/-!
Shallow embedding of RascalRunner (rascalrunner/app.py and gitlabrunner.py):
a tool that pushes a CI workflow payload to an ephemeral branch of a target
repository, observes the resulting run, collects its logs, and cleans up.

External effects (network calls, the temporary directory, file writes) are
modelled by an `Env` record that fixes the platform's responses and by an
explicit event trace; each method of `RascalRunner` becomes a function
returning `Except Err _ × List Event`, and `run` composes them in the same
strict sequence as the Python source, with exception propagation modelled
by `Except`.
-/

deriving instance DecidableEq for Except

/-- Observable effects of the operation.  Network reads and remote
mutations are distinguished so that claims about "no mutating call" can be
stated. -/
inductive Event where
  /-- `gh.get_rate_limit()` in `_login` (read probe). -/
  | netRateLimit
  /-- `tempfile.TemporaryDirectory()` in `_clone_repository`. -/
  | tmpDirCreate
  /-- `Repo.clone_from` in `_clone_repository` (remote read). -/
  | netClone
  /-- `remote.push(refspec=branch:branch)` in `_push_workflow` (remote mutation). -/
  | netPushBranch
  /-- one `gh_repo.get_workflow_runs(branch=...)` query in `_wait_for_workflow` (read). -/
  | netPollRuns
  /-- `remote.push(refspec=":refs/heads/branch")` in `_remove_remote_branch` (remote mutation). -/
  | netDeleteBranch
  /-- the GET of `run.logs_url` in `_download_run_logs` (read). -/
  | netDownloadLogs
  /-- `self._github.get_repo(self._target).name` in `_download_run_logs` (read). -/
  | netGetRepoName
  /-- the local artifact file write in `_download_run_logs`. -/
  | fsWriteArtifact (name : String)
  /-- `run.delete()` in `_wait_for_workflow` (remote mutation). -/
  | netDeleteRun
  /-- `gh_repo.get_deployments(ref=...)` in `_delete_deployments` (read). -/
  | netListDeployments
  /-- `deployment.create_status(state="inactive")` (remote mutation). -/
  | netSetDeployInactive (id : Nat)
  /-- the raw `DELETE deployment.url` API call (remote mutation). -/
  | netDeleteDeployment (id : Nat)
  /-- `self._tmp_dir.cleanup()` in `_cleanup`. -/
  | tmpDirCleanup
  deriving DecidableEq, Repr

/-- Whether an event mutates remote state. -/
def Event.mutating : Event → Bool
  | .netPushBranch => true
  | .netDeleteBranch => true
  | .netDeleteRun => true
  | .netSetDeployInactive _ => true
  | .netDeleteDeployment _ => true
  | _ => false

/-- The errors (Python exceptions) the embedded code can raise. -/
inductive Err where
  /-- the `token` property setter: token does not match `^ghp_[a-zA-Z0-9]\x7b36\x7d$`. -/
  | invalidTokenFormat
  /-- the `target` property setter: no "/" in the target string. -/
  | targetMissingSlash
  /-- the `workflow` property setter: "Couldn't open workflow file";
  `invalidYaml` is true when the wrapped inner error was the
  "Workflow file doesn't contain valid YAML" one. -/
  | couldNotOpenWorkflow (invalidYaml : Bool)
  /-- `_login`: `gh.get_rate_limit()` raised (bad credential / transport). -/
  | authFailed
  /-- `_login`: "Repo access isn't allowed with the provided token". -/
  | repoScopeMissing
  /-- `_login`: "Workflow access isn't allowed with the provided token". -/
  | workflowScopeMissing
  /-- `_clone_repository`: "Failed to clone repository". -/
  | cloneFailed
  /-- `_push_workflow`: `shutil.rmtree` raised `FileNotFoundError` because
  `.github/workflows/` is absent from the clone. -/
  | workflowsDirMissing
  /-- `_push_workflow`: `self._repo.head.commit` raised because the cloned
  repository has no commit. -/
  | noHeadCommit
  /-- `_push_workflow`: `remote.push` of the new branch failed. -/
  | pushFailed
  /-- `_wait_for_workflow`: `run.status` raised `AttributeError` because the
  run query returned `None`. -/
  | attrNoneStatus
  /-- modelling artifact: the supplied poll stream was exhausted; the real
  loop would still be polling (it never returns in this case). -/
  | observerHang
  /-- `_delete_deployments`: `deployment.create_status` raised. -/
  | deployStatusUpdateFailed (id : Nat)
  /-- `_remove_remote_branch`: git refused to delete the remote ref because
  it does not exist ("unable to delete ...: remote ref does not exist"). -/
  | remoteRefMissing
  deriving DecidableEq, Repr

/-- Errors raised by `_login` for a missing scope; the spec calls both
`InsufficientCapabilities`. -/
def Err.isInsufficientCapabilities : Err → Bool
  | .repoScopeMissing => true
  | .workflowScopeMissing => true
  | _ => false

/-- GitPython `git.util.Actor`: a name/email pair. -/
structure Actor where
  name : String
  email : String
  deriving DecidableEq, Repr

/-- GitPython `Actor.conf_name` is a class-level constant (the git
configuration key `"name"`), reachable as an attribute of any instance;
it is NOT the actor's name. -/
def Actor.conf_name (_ : Actor) : String := "name"

/-- GitPython `Actor.conf_email` is a class-level constant (the git
configuration key `"email"`), reachable as an attribute of any instance;
it is NOT the actor's email. -/
def Actor.conf_email (_ : Actor) : String := "email"

/-- A git commit, as far as `_push_workflow` reads it. -/
structure Commit where
  author : Actor
  deriving DecidableEq, Repr

/-- A GitHub workflow run, as far as `_wait_for_workflow` reads it. -/
structure Run where
  status : String
  logs_url : String
  deriving DecidableEq, Repr

/-- A GitHub deployment record, as far as `_delete_deployments` reads it. -/
structure Deployment where
  id : Nat
  deriving DecidableEq, Repr

/-- The fields of a `RascalRunner` instance set by `__init__`. -/
structure RState where
  target : String
  workflow : String
  token : String
  branchName : String
  deriving DecidableEq, Repr

/-- `RascalRunner.__init__(target, workflow, token)`: assigns the
underscore-prefixed backing fields directly (`self._target = target` etc.),
NOT through the validating property setters, and builds the branch name
`"lint-testing-" + 5 random letters` (the random suffix is a parameter). -/
def rascalInit (target workflow token suffix : String) : RState :=
  { target := target, workflow := workflow, token := token,
    branchName := "lint-testing-" ++ suffix }

/-- Python `re.match(r"^ghp_[a-zA-Z0-9]\x7b36\x7d$", s)`: an optional single
trailing newline is tolerated by `$`, the rest must be `ghp_` followed by
exactly 36 ASCII alphanumerics. -/
def tokenMatches (s : String) : Bool :=
  let core := if s.data.getLast? == some '\n' then s.data.dropLast else s.data
  core.length == 40 && core.take 4 == "ghp_".data &&
    (core.drop 4).all (fun c => c.isAlpha || c.isDigit)

/-- The `token` property setter of `RascalRunner`: raises unless the token
matches the `ghp_` pattern. -/
def token_setter (st : RState) (tok : String) : Except Err RState :=
  if tokenMatches tok then Except.ok { st with token := tok }
  else Except.error Err.invalidTokenFormat

/-- The `target` property setter of `RascalRunner`: raises unless the
target contains a "/". -/
def target_setter (st : RState) (target : String) : Except Err RState :=
  if target.data.contains '/' then Except.ok { st with target := target }
  else Except.error Err.targetMissingSlash

/-- The `workflow` property setter of `RascalRunner`: opens the file and
parses it with `yaml.safe_load`.  The inner "doesn't contain valid YAML"
exception is re-raised inside the outer `try`, so it surfaces wrapped in
"Couldn't open workflow file".  `files` models the filesystem and `yamlOk`
the YAML parser's verdict on a file's contents. -/
def workflow_setter (files : String → Option String) (yamlOk : String → Bool)
    (st : RState) (wf : String) : Except Err RState :=
  match files wf with
  | none => Except.error (Err.couldNotOpenWorkflow false)
  | some content =>
    if yamlOk content then Except.ok { st with workflow := wf }
    else Except.error (Err.couldNotOpenWorkflow true)

/-- Python `os.path.basename`: the part after the last "/". -/
def basename (p : String) : String :=
  String.mk ((p.data.splitOn '/').getLastD p.data)

/-- Python `os.path.basename(workflow).split(".")[0]` from
`_download_run_logs`: the base name truncated at its FIRST dot. -/
def workflowFilename (wf : String) : String :=
  String.mk (((basename wf).data.splitOn '.').headD [])

/-- Python `re.compile(r"0_.*\.txt$").match(name)`: anchored at the start,
`.` does not cross a newline, and `$` also matches just before one final
trailing newline. -/
def logNameMatches (name : String) : Bool :=
  let core := if name.data.getLast? == some '\n' then name.data.dropLast else name.data
  core.take 2 == "0_".data && core.drop (core.length - 4) == ".txt".data &&
    6 ≤ core.length && !((core.take (core.length - 4)).drop 2).contains '\n'

/-- The artifact file name built in `_download_run_logs`:
`repo_name ++ "-" ++ workflow_filename ++ "-" ++ int(time.time()) ++ ".txt"`. -/
def artifactFileName (repoName wf : String) (ts : Nat) : String :=
  repoName ++ "-" ++ workflowFilename wf ++ "-" ++ toString ts ++ ".txt"

/-- `_download_run_logs`, after the zip download: filter the archive's name
list through the `0_.*\.txt$` pattern; if no entry matches, nothing is
written (and no error is raised); otherwise the first match's bytes are
written to the artifact file.  The zip is a list of (name, bytes) entries
in enumeration order; the result is the written (filename, bytes), if any. -/
def download_run_logs (repoName wf : String) (ts : Nat)
    (zipEntries : List (String × String)) : Option (String × String) :=
  match zipEntries.filter (fun e => logNameMatches e.1) with
  | [] => none
  | m :: _ => some (artifactFileName repoName wf ts, m.2)

/-- Modelled from the spec's words, for comparison only: "the payload
file's base name (extension stripped)" — the base name with everything
from its final dot removed (a dotless name is unchanged). -/
def specStripExt (base : String) : String :=
  let parts := base.data.splitOn '.'
  if parts.length ≤ 1 then base
  else String.mk (List.intercalate ['.'] parts.dropLast)

/-- `_push_workflow` steps 2-5 on the pipeline-definition directory, acting
on the contents of `.github/workflows/` in the clone (`none` = the
directory is absent, `some es` = present with entries `es`):
`shutil.rmtree` (raises `FileNotFoundError` when the path is absent, since
`ignore_errors` is not set), `index.remove` (index-only), `os.mkdir`
(recreates it empty), `shutil.copy2` (copies the payload in under its base
name).  Returns the directory's final contents. -/
def push_workflow_dir (dir : Option (List String)) (payloadBase : String) :
    Except Err (List String) :=
  match dir with
  | none => Except.error Err.workflowsDirMissing
  | some _ => Except.ok ([] ++ [payloadBase])

/-- `_push_workflow` steps 6-7: read
`self._repo.head.commit.author.conf_name` / `.conf_email` (raising when the
clone has no head commit) and build the `Actor` passed as both author and
committer of the staging commit. -/
def commitActor (headCommit : Option Commit) : Except Err Actor :=
  match headCommit with
  | none => Except.error Err.noHeadCommit
  | some c => Except.ok { name := c.author.conf_name, email := c.author.conf_email }

/-- `_remove_remote_branch`: `remote.push(refspec=":refs/heads/<branch>")`.
Git reports deleting a remote ref that does not exist as an error
("unable to delete: remote ref does not exist", exit 1), which GitPython's
`Remote.push` surfaces as a raised error; deleting a present ref removes
it.  `remoteBranches` is the remote's branch list. -/
def remove_remote_branch (remoteBranches : List String) (branch : String) :
    Except Err (List String) :=
  if remoteBranches.contains branch then Except.ok (remoteBranches.erase branch)
  else Except.error Err.remoteRefMissing

/-- The environment fixing every external response an operation can
receive: the outcome of each network call, the clone's relevant contents,
the poll-query results (in order), the log-bundle zip, and the deployment
records with the per-record outcomes of their API calls. -/
structure Env where
  /-- whether `gh.get_rate_limit()` succeeds (a bad token makes it raise). -/
  rateLimitOk : Bool
  /-- `gh.oauth_scopes` of the token. -/
  scopes : List String
  /-- whether `Repo.clone_from` succeeds. -/
  cloneOk : Bool
  /-- the contents of `.github/workflows/` in the fresh clone. -/
  workflowsDir : Option (List String)
  /-- the head commit of the fresh clone, if any. -/
  headCommit : Option Commit
  /-- whether the `remote.push` of the new branch succeeds. -/
  pushOk : Bool
  /-- successive results of `next(iter(gh_repo.get_workflow_runs(branch=...)), None)`. -/
  polls : List (Option Run)
  /-- `self._github.get_repo(self._target).name`. -/
  repoName : String
  /-- `int(time.time())` at artifact-write time. -/
  timestamp : Nat
  /-- the log-bundle zip's entries, (name, bytes) in enumeration order. -/
  zipEntries : List (String × String)
  /-- the deployment records returned for the ephemeral branch. -/
  deployments : List Deployment
  /-- whether `deployment.create_status(state="inactive")` succeeds, per id. -/
  statusUpdateOk : Nat → Bool
  /-- the HTTP status of the raw `DELETE deployment.url` call, per id. -/
  deleteStatusCode : Nat → Nat

/-- `RascalRunner._login`: builds the client (no network), calls
`gh.get_rate_limit()` (the single network probe, raising on a bad
credential), then checks `"repo"` and then `"workflow"` membership in
`gh.oauth_scopes`, raising on the first missing one. -/
def login (env : Env) : Except Err Unit × List Event :=
  if !env.rateLimitOk then (Except.error Err.authFailed, [Event.netRateLimit])
  else if !(env.scopes.contains "repo") then
    (Except.error Err.repoScopeMissing, [Event.netRateLimit])
  else if !(env.scopes.contains "workflow") then
    (Except.error Err.workflowScopeMissing, [Event.netRateLimit])
  else (Except.ok (), [Event.netRateLimit])

/-- `RascalRunner._clone_repository`: creates the temporary directory, then
clones the target into it via the token-bearing URL, re-raising any clone
failure as "Failed to clone repository". -/
def clone_repository (env : Env) : Except Err Unit × List Event :=
  if env.cloneOk then (Except.ok (), [Event.tmpDirCreate, Event.netClone])
  else (Except.error Err.cloneFailed, [Event.tmpDirCreate, Event.netClone])

/-- `RascalRunner._push_workflow`: create and check out the ephemeral
branch (local), replace the `.github/workflows/` directory with the
payload (`push_workflow_dir`), build the commit actor from the head
commit's `conf_name`/`conf_email` (`commitActor`), `git add` and commit
(local), then push the branch to origin with `set_upstream`. -/
def push_workflow (env : Env) (st : RState) : Except Err Unit × List Event :=
  match push_workflow_dir env.workflowsDir (basename st.workflow) with
  | Except.error e => (Except.error e, [])
  | Except.ok _ =>
    match commitActor env.headCommit with
    | Except.error e => (Except.error e, [])
    | Except.ok _ =>
      if env.pushOk then (Except.ok (), [Event.netPushBranch])
      else (Except.error Err.pushFailed, [Event.netPushBranch])

/-- The events of one `_download_run_logs` call: the zip download, then —
only when some entry matches — the repo-name lookup and the artifact file
write. -/
def downloadLogsEvents (env : Env) (st : RState) : List Event :=
  Event.netDownloadLogs ::
    match download_run_logs env.repoName st.workflow env.timestamp env.zipEntries with
    | none => []
    | some w => [Event.netGetRepoName, Event.fsWriteArtifact w.1]

/-- The inner `while True` of `_wait_for_workflow` (the completion wait):
each tick sleeps, re-queries the branch's runs, and dereferences
`run.status` on the result WITHOUT a presence check — a `None` result
raises `AttributeError`.  On `status == "completed"` it downloads the logs,
deletes the run, and returns; on any other status it just loops. -/
def completion_wait (env : Env) (st : RState) :
    List (Option Run) → Except Err Run × List Event
  | [] => (Except.error Err.observerHang, [])
  | none :: _ => (Except.error Err.attrNoneStatus, [Event.netPollRuns])
  | some r :: rest =>
    if r.status == "completed" then
      (Except.ok r,
        Event.netPollRuns :: (downloadLogsEvents env st ++ [Event.netDeleteRun]))
    else
      ((completion_wait env st rest).1,
       Event.netPollRuns :: (completion_wait env st rest).2)

/-- The outer `while True` of `_wait_for_workflow`: each tick sleeps and
queries the branch's runs; `None` results just loop; on the FIRST run
found — whatever its status — it calls `_remove_remote_branch()` and
enters the completion wait on the remaining poll results. -/
def wait_for_workflow (env : Env) (st : RState) :
    List (Option Run) → Except Err Run × List Event
  | [] => (Except.error Err.observerHang, [])
  | none :: rest =>
    ((wait_for_workflow env st rest).1,
     Event.netPollRuns :: (wait_for_workflow env st rest).2)
  | some _ :: rest =>
    ((completion_wait env st rest).1,
     Event.netPollRuns :: Event.netDeleteBranch :: (completion_wait env st rest).2)

/-- The `for deployment in deployments` loop of `_delete_deployments`:
for each record, `create_status(state="inactive")` (an exception here
propagates, aborting the loop), then the raw `DELETE` call, whose non-204
response is only logged ("please clean up manually") before continuing. -/
def delete_deployments_loop (statusUpdateOk : Nat → Bool)
    (deleteStatusCode : Nat → Nat) :
    List Deployment → Except Err Unit × List Event
  | [] => (Except.ok (), [])
  | d :: rest =>
    if statusUpdateOk d.id then
      ((delete_deployments_loop statusUpdateOk deleteStatusCode rest).1,
       Event.netSetDeployInactive d.id :: Event.netDeleteDeployment d.id ::
         (delete_deployments_loop statusUpdateOk deleteStatusCode rest).2)
    else
      (Except.error (Err.deployStatusUpdateFailed d.id), [Event.netSetDeployInactive d.id])

/-- `RascalRunner._delete_deployments`: enumerate the branch's deployment
records, then run the per-record loop. -/
def delete_deployments (env : Env) : Except Err Unit × List Event :=
  ((delete_deployments_loop env.statusUpdateOk env.deleteStatusCode env.deployments).1,
   Event.netListDeployments ::
     (delete_deployments_loop env.statusUpdateOk env.deleteStatusCode env.deployments).2)

/-- `RascalRunner._wait_for_workflow` as a step (its returned run is not
used further by `run`). -/
def wait_step (env : Env) (st : RState) : Except Err Unit × List Event :=
  ((wait_for_workflow env st env.polls).1.map (fun _ => ()),
   (wait_for_workflow env st env.polls).2)

/-- `RascalRunner._cleanup`: `self._tmp_dir.cleanup()`. -/
def cleanup_step : Except Err Unit × List Event :=
  (Except.ok (), [Event.tmpDirCleanup])

/-- Straight-line sequencing with Python exception propagation: each step
runs only if every earlier one returned normally; the first raising step's
error is the result and nothing after it contributes events. -/
def seqSteps : List (Except Err Unit × List Event) → Except Err Unit × List Event
  | [] => (Except.ok (), [])
  | s :: rest =>
    match s.1 with
    | Except.error e => (Except.error e, s.2)
    | Except.ok _ => ((seqSteps rest).1, s.2 ++ (seqSteps rest).2)

/-- `RascalRunner.run`: `_login`, `_clone_repository`, `_push_workflow`,
`_wait_for_workflow`, `_delete_deployments`, `_cleanup`, strictly in
sequence with NO exception handler around any of them. -/
def run (env : Env) (st : RState) : Except Err Unit × List Event :=
  seqSteps [login env, clone_repository env, push_workflow env st,
            wait_step env st, delete_deployments env, cleanup_step]

/-! The GitLab variant (gitlabrunner.py).  Its branch creation, pipeline
deployment, monitoring and cleanup bodies are unimplemented stubs (`pass` /
hard-coded returns), so the only network calls `run_operation` can make are
the two reads of `_validate_target`, and its only real check is the YAML
validation of `_deploy_pipeline`. -/

/-- The network calls the GitLab runner can actually perform. -/
inductive GlEvent where
  /-- `self.wrapper.list_projects()` (read). -/
  | netListProjects
  /-- `self.wrapper.get_project(project_id)` (read). -/
  | netGetProject
  deriving DecidableEq, Repr

/-- The fields of the dict `GitLabRunner.run_operation` returns that the
claims mention. -/
structure GlResult where
  status : String
  cleanupPerformed : Bool
  deriving DecidableEq, Repr

/-- Python `str.isdigit()` (ASCII inputs): nonempty and all digits. -/
def pyIsDigit (s : String) : Bool := !s.data.isEmpty && s.data.all Char.isDigit

/-- `GitLabRunner._validate_target`: a purely numeric target is used as
the project id directly; otherwise the accessible projects (pairs of
`path_with_namespace` and id) are listed and matched by namespaced path;
then the project is fetched.  Any failure is re-raised as
"Failed to validate target". -/
def validate_target (projects : List (String × String)) (getProjectOk : Bool)
    (target : String) : Except String String × List GlEvent :=
  if pyIsDigit target then
    if getProjectOk then (Except.ok target, [GlEvent.netGetProject])
    else (Except.error "Failed to validate target", [GlEvent.netGetProject])
  else
    match projects.find? (fun p => p.1 == target) with
    | none => (Except.error "Failed to validate target", [GlEvent.netListProjects])
    | some p =>
      if getProjectOk then (Except.ok p.2, [GlEvent.netListProjects, GlEvent.netGetProject])
      else (Except.error "Failed to validate target",
            [GlEvent.netListProjects, GlEvent.netGetProject])

/-- The validation part of `GitLabRunner._deploy_pipeline`: read the
pipeline file and run `yaml.safe_load` on its contents, re-raising any
failure as "Failed to load pipeline file"; the deployment itself is an
unimplemented stub. -/
def deploy_pipeline_check (files : String → Option String)
    (yamlOk : String → Bool) (pipelineFile : String) : Except String Unit :=
  match files pipelineFile with
  | none => Except.error "Failed to load pipeline file"
  | some content =>
    if yamlOk content then Except.ok ()
    else Except.error "Failed to load pipeline file"

/-- `GitLabRunner.run_operation`: validate the target, back up the CI file
(stub), create the temp branch (stub), deploy the pipeline (only the YAML
validation is real), monitor and collect (stubs), clean up (stub).  Any
exception is caught: `_emergency_cleanup` (a stub, its own errors
swallowed) is attempted and a `"failed"` result with
`cleanup_performed = False` is returned instead of re-raising. -/
def run_operation (projects : List (String × String)) (getProjectOk : Bool)
    (files : String → Option String) (yamlOk : String → Bool)
    (target pipelineFile : String) (cleanup : Bool) : GlResult × List GlEvent :=
  match (validate_target projects getProjectOk target).1 with
  | Except.error _ =>
    ({ status := "failed", cleanupPerformed := false },
     (validate_target projects getProjectOk target).2)
  | Except.ok _ =>
    match deploy_pipeline_check files yamlOk pipelineFile with
    | Except.error _ =>
      ({ status := "failed", cleanupPerformed := false },
       (validate_target projects getProjectOk target).2)
    | Except.ok _ =>
      ({ status := "success", cleanupPerformed := cleanup },
       (validate_target projects getProjectOk target).2)

/-- A concrete all-success environment used by witnesses and
counterexamples: both scopes granted, a clone holding two old workflow
files and a head commit by Alice, a run that is first queued and then
completed, a log bundle with one matching entry, and one deployment
record whose API calls succeed. -/
def envBase : Env :=
  { rateLimitOk := true, scopes := ["repo", "workflow"], cloneOk := true,
    workflowsDir := some ["ci.yml", "old.yml"],
    headCommit := some { author := { name := "Alice", email := "alice@example.com" } },
    pushOk := true,
    polls := [some { status := "queued", logs_url := "u" },
              some { status := "completed", logs_url := "u" }],
    repoName := "widgets", timestamp := 1700000000,
    zipEntries := [("0_build.txt", "LOGBYTES")],
    deployments := [{ id := 7 }],
    statusUpdateOk := fun _ => true, deleteStatusCode := fun _ => 204 }

/-- A concrete instance state, as `main` builds it: the raw command-line
arguments are stored by `__init__` with no validation — here the token
`"bad"` does not match the `ghp_` shape and the payload `payloads/evil.yml`
is the file the concrete `filesBad` below maps to invalid YAML. -/
def stBase : RState := rascalInit "acme/widgets" "payloads/evil.yml" "bad" "abcde"

/-- A concrete filesystem whose only file is the payload, with contents
that are not valid YAML. -/
def filesBad : String → Option String :=
  fun p => if p == "payloads/evil.yml" then some "a: [unclosed" else none

/-- A concrete YAML-parser verdict under which `filesBad`'s payload (and
every other content) fails to parse. -/
def yamlRejects : String → Bool := fun _ => false

/-! Helper lemmas about the step combinator and the traces of the
individual methods. -/

lemma seqSteps_cons_error (s : Except Err Unit × List Event)
    (rest : List (Except Err Unit × List Event)) (e : Err)
    (h : s.1 = Except.error e) : seqSteps (s :: rest) = (Except.error e, s.2) := by
  unfold seqSteps
  rw [h]

lemma seqSteps_cons_ok (s : Except Err Unit × List Event)
    (rest : List (Except Err Unit × List Event)) (h : s.1 = Except.ok ()) :
    seqSteps (s :: rest) = ((seqSteps rest).1, s.2 ++ (seqSteps rest).2) := by
  obtain ⟨s1, s2⟩ := s
  change s1 = Except.ok () at h
  subst h
  rfl

lemma seqSteps_events_prefix (s : Except Err Unit × List Event)
    (rest : List (Except Err Unit × List Event)) :
    ∃ t, (seqSteps (s :: rest)).2 = s.2 ++ t := by
  cases h : s.1 with
  | error e =>
    refine ⟨[], ?_⟩
    rw [seqSteps_cons_error s rest e h]
    simp
  | ok u =>
    cases u
    exact ⟨(seqSteps rest).2, by rw [seqSteps_cons_ok s rest h]⟩

lemma seqSteps_error_sub (ss : List (Except Err Unit × List Event))
    (last : Except Err Unit × List Event) (hlast : last.1 = Except.ok ())
    (er : Err) :
    (seqSteps (ss ++ [last])).1 = Except.error er →
    ∀ x ∈ (seqSteps (ss ++ [last])).2, ∃ s ∈ ss, x ∈ s.2 := by
  induction ss with
  | nil =>
    intro h
    exfalso
    rw [List.nil_append, seqSteps_cons_ok last [] hlast] at h
    simp [seqSteps] at h
  | cons a rest ih =>
    intro h x hx
    rw [List.cons_append] at h hx
    cases ha : a.1 with
    | error e =>
      rw [seqSteps_cons_error a _ e ha] at hx
      exact ⟨a, List.mem_cons_self a rest, hx⟩
    | ok u =>
      cases u
      rw [seqSteps_cons_ok a _ ha] at h hx
      have h' : (seqSteps (rest ++ [last])).1 = Except.error er := h
      simp only [List.mem_append] at hx
      rcases hx with hx | hx
      · exact ⟨a, List.mem_cons_self a rest, hx⟩
      · obtain ⟨s, hs, hxs⟩ := ih h' x hx
        exact ⟨s, List.mem_cons_of_mem a hs, hxs⟩

lemma seqSteps_count_le (x : Event) (ss : List (Except Err Unit × List Event)) :
    (seqSteps ss).2.count x ≤ (ss.map (fun s => s.2.count x)).sum := by
  induction ss with
  | nil => simp [seqSteps]
  | cons a rest ih =>
    cases ha : a.1 with
    | error e =>
      rw [seqSteps_cons_error a rest e ha]
      simp only [List.map_cons, List.sum_cons]
      exact Nat.le_add_right_of_le (Nat.le_refl _)
    | ok u =>
      cases u
      rw [seqSteps_cons_ok a rest ha]
      simp only [List.map_cons, List.sum_cons, List.count_append]
      exact Nat.add_le_add_left ih _

lemma login_events (env : Env) : (login env).2 = [Event.netRateLimit] := by
  unfold login
  split_ifs <;> rfl

lemma clone_events (env : Env) :
    (clone_repository env).2 = [Event.tmpDirCreate, Event.netClone] := by
  unfold clone_repository
  split_ifs <;> rfl

lemma push_workflow_events (env : Env) (st : RState) :
    (push_workflow env st).2 = [] ∨ (push_workflow env st).2 = [Event.netPushBranch] := by
  unfold push_workflow
  cases hd : push_workflow_dir env.workflowsDir (basename st.workflow) with
  | error e => exact Or.inl rfl
  | ok l =>
    cases hc : commitActor env.headCommit with
    | error e => exact Or.inl rfl
    | ok a =>
      split_ifs <;> exact Or.inr rfl

lemma downloadLogsEvents_forms (env : Env) (st : RState) :
    downloadLogsEvents env st = [Event.netDownloadLogs]
    ∨ ∃ n, downloadLogsEvents env st
        = [Event.netDownloadLogs, Event.netGetRepoName, Event.fsWriteArtifact n] := by
  unfold downloadLogsEvents
  cases h : download_run_logs env.repoName st.workflow env.timestamp env.zipEntries with
  | none => exact Or.inl rfl
  | some w => exact Or.inr ⟨w.1, rfl⟩

lemma downloadLogsEvents_no_cleanup (env : Env) (st : RState) :
    Event.tmpDirCleanup ∉ downloadLogsEvents env st := by
  rcases downloadLogsEvents_forms env st with h | ⟨n, h⟩ <;> rw [h] <;> simp

lemma downloadLogsEvents_no_deleteBranch (env : Env) (st : RState) :
    Event.netDeleteBranch ∉ downloadLogsEvents env st := by
  rcases downloadLogsEvents_forms env st with h | ⟨n, h⟩ <;> rw [h] <;> simp

lemma completion_wait_no_cleanup (env : Env) (st : RState) :
    ∀ polls, Event.tmpDirCleanup ∉ (completion_wait env st polls).2 := by
  intro polls
  induction polls with
  | nil => simp [completion_wait]
  | cons p rest ih =>
    cases p with
    | none => simp [completion_wait]
    | some r =>
      unfold completion_wait
      split_ifs with h
      · intro hmem
        simp only [List.mem_cons, List.mem_append, List.mem_singleton,
          List.not_mem_nil, or_false] at hmem
        rcases hmem with h1 | h1 | h1
        · exact Event.noConfusion h1
        · exact downloadLogsEvents_no_cleanup env st h1
        · exact Event.noConfusion h1
      · intro hmem
        simp only [List.mem_cons] at hmem
        rcases hmem with h1 | h1
        · exact Event.noConfusion h1
        · exact ih h1

lemma completion_wait_no_deleteBranch (env : Env) (st : RState) :
    ∀ polls, Event.netDeleteBranch ∉ (completion_wait env st polls).2 := by
  intro polls
  induction polls with
  | nil => simp [completion_wait]
  | cons p rest ih =>
    cases p with
    | none => simp [completion_wait]
    | some r =>
      unfold completion_wait
      split_ifs with h
      · intro hmem
        simp only [List.mem_cons, List.mem_append, List.mem_singleton,
          List.not_mem_nil, or_false] at hmem
        rcases hmem with h1 | h1 | h1
        · exact Event.noConfusion h1
        · exact downloadLogsEvents_no_deleteBranch env st h1
        · exact Event.noConfusion h1
      · intro hmem
        simp only [List.mem_cons] at hmem
        rcases hmem with h1 | h1
        · exact Event.noConfusion h1
        · exact ih h1

lemma wait_no_cleanup (env : Env) (st : RState) :
    ∀ polls, Event.tmpDirCleanup ∉ (wait_for_workflow env st polls).2 := by
  intro polls
  induction polls with
  | nil => simp [wait_for_workflow]
  | cons p rest ih =>
    cases p with
    | none =>
      unfold wait_for_workflow
      intro hmem
      simp only [List.mem_cons] at hmem
      rcases hmem with h1 | h1
      · exact Event.noConfusion h1
      · exact ih h1
    | some r =>
      unfold wait_for_workflow
      intro hmem
      simp only [List.mem_cons] at hmem
      rcases hmem with h1 | h1 | h1
      · exact Event.noConfusion h1
      · exact Event.noConfusion h1
      · exact completion_wait_no_cleanup env st rest h1

lemma wait_count_deleteBranch (env : Env) (st : RState) :
    ∀ polls, (wait_for_workflow env st polls).2.count Event.netDeleteBranch ≤ 1 := by
  intro polls
  induction polls with
  | nil => simp [wait_for_workflow]
  | cons p rest ih =>
    cases p with
    | none =>
      unfold wait_for_workflow
      simpa using ih
    | some r =>
      unfold wait_for_workflow
      have h0 : (completion_wait env st rest).2.count Event.netDeleteBranch = 0 :=
        List.count_eq_zero.mpr (completion_wait_no_deleteBranch env st rest)
      simp [List.count_cons, h0]

lemma deploy_loop_no_cleanup (su : Nat → Bool) (dc : Nat → Nat) :
    ∀ ds, Event.tmpDirCleanup ∉ (delete_deployments_loop su dc ds).2 := by
  intro ds
  induction ds with
  | nil => simp [delete_deployments_loop]
  | cons d rest ih =>
    unfold delete_deployments_loop
    split_ifs with h
    · intro hmem
      simp only [List.mem_cons] at hmem
      rcases hmem with h1 | h1 | h1
      · exact Event.noConfusion h1
      · exact Event.noConfusion h1
      · exact ih h1
    · intro hmem
      simp only [List.mem_singleton] at hmem
      exact Event.noConfusion hmem

lemma deploy_loop_no_deleteBranch (su : Nat → Bool) (dc : Nat → Nat) :
    ∀ ds, Event.netDeleteBranch ∉ (delete_deployments_loop su dc ds).2 := by
  intro ds
  induction ds with
  | nil => simp [delete_deployments_loop]
  | cons d rest ih =>
    unfold delete_deployments_loop
    split_ifs with h
    · intro hmem
      simp only [List.mem_cons] at hmem
      rcases hmem with h1 | h1 | h1
      · exact Event.noConfusion h1
      · exact Event.noConfusion h1
      · exact ih h1
    · intro hmem
      simp only [List.mem_singleton] at hmem
      exact Event.noConfusion hmem

lemma delete_deployments_no_cleanup (env : Env) :
    Event.tmpDirCleanup ∉ (delete_deployments env).2 := by
  intro hmem
  simp only [delete_deployments, List.mem_cons] at hmem
  rcases hmem with h1 | h1
  · exact Event.noConfusion h1
  · exact deploy_loop_no_cleanup env.statusUpdateOk env.deleteStatusCode env.deployments h1

lemma run_error_no_cleanup (env : Env) (st : RState) (e : Err)
    (h : (run env st).1 = Except.error e) :
    Event.tmpDirCleanup ∉ (run env st).2 := by
  intro hmem
  have hrun : run env st
      = seqSteps ([login env, clone_repository env, push_workflow env st,
                   wait_step env st, delete_deployments env] ++ [cleanup_step]) := rfl
  rw [hrun] at h hmem
  obtain ⟨s, hs, hx⟩ := seqSteps_error_sub _ cleanup_step rfl e h _ hmem
  simp only [List.mem_cons, List.not_mem_nil, or_false] at hs
  rcases hs with hs | hs | hs | hs | hs
  · rw [hs, login_events] at hx
    simp at hx
  · rw [hs, clone_events] at hx
    simp at hx
  · rcases push_workflow_events env st with hp | hp <;> rw [hs, hp] at hx <;> simp at hx
  · rw [hs] at hx
    exact wait_no_cleanup env st env.polls hx
  · rw [hs] at hx
    exact delete_deployments_no_cleanup env hx

lemma completion_wait_cons_some (env : Env) (st : RState) (r : Run)
    (rest : List (Option Run)) :
    completion_wait env st (some r :: rest)
      = if (r.status == "completed") = true then
          (Except.ok r,
           Event.netPollRuns :: (downloadLogsEvents env st ++ [Event.netDeleteRun]))
        else ((completion_wait env st rest).1,
              Event.netPollRuns :: (completion_wait env st rest).2) := rfl

/-! The claims. -/

/-- C1, amended: in `RascalRunner.run` a raising forward step propagates
immediately to the caller with NO teardown: the workspace release
(`_cleanup`) never runs on any failure path, and teardown is not
best-effort internally either — inside `_delete_deployments` a failing
status-update sub-step aborts the remaining deployment records and
escalates its own error (only a non-204 response to the raw DELETE call is
tolerated). -/
theorem c1_no_teardown_on_failure :
    (∀ env st e, (run env st).1 = Except.error e →
      Event.tmpDirCleanup ∉ (run env st).2)
    ∧ (∀ su dc d rest, su d.id = false →
        delete_deployments_loop su dc (d :: rest)
          = (Except.error (Err.deployStatusUpdateFailed d.id),
             [Event.netSetDeployInactive d.id])) := by
  constructor
  · exact run_error_no_cleanup
  · intro su dc d rest h
    unfold delete_deployments_loop
    simp [h]

/-- Witness for C1 at concrete inputs: with a failing clone, the workspace
release is absent from the trace; with one deployment record whose
status-update fails, the loop stops at it and escalates. -/
theorem c1_witness :
    Event.tmpDirCleanup ∉ (run { envBase with cloneOk := false } stBase).2
    ∧ delete_deployments_loop (fun _ => false) (fun _ => 204) [{ id := 7 }]
        = (Except.error (Err.deployStatusUpdateFailed 7),
           [Event.netSetDeployInactive 7]) :=
  ⟨c1_no_teardown_on_failure.1 _ stBase Err.cloneFailed rfl,
   c1_no_teardown_on_failure.2 _ _ _ [] rfl⟩

/-- Counterexample to C1 as stated: when the clone step raises, the error
surfaces to the caller with NO teardown sub-step in the trace — no
deployment enumeration, no branch removal, no run deletion, no workspace
release — contradicting "best-effort teardown is invoked before the error
surfaces". -/
theorem c1_counterexample :
    (run { envBase with cloneOk := false } stBase).1 = Except.error Err.cloneFailed
    ∧ (run { envBase with cloneOk := false } stBase).2
        = [Event.netRateLimit, Event.tmpDirCreate, Event.netClone] :=
  ⟨rfl, rfl⟩

/-- C2, amended: the `token` property setter does reject every string not
matching the `ghp_` + 36 alphanumerics shape, but `__init__` stores the
raw token in `self._token` without invoking that setter, so the operation
run from `main` performs its first network call (the `get_rate_limit`
probe in `_login`) without any credential-format check — the format error
can never surface from `run`. -/
theorem c2_token_validation_bypassed :
    (∀ st tok, tokenMatches tok = false →
      token_setter st tok = Except.error Err.invalidTokenFormat)
    ∧ (∀ target workflow tok suffix, (rascalInit target workflow tok suffix).token = tok)
    ∧ (∀ env st, (run env st).2.head? = some Event.netRateLimit) := by
  refine ⟨?_, ?_, ?_⟩
  · intro st tok h
    unfold token_setter
    simp [h]
  · intro target workflow tok suffix
    rfl
  · intro env st
    obtain ⟨t, ht⟩ := seqSteps_events_prefix (login env)
        [clone_repository env, push_workflow env st, wait_step env st,
         delete_deployments env, cleanup_step]
    have hr : (run env st).2 = (login env).2 ++ t := ht
    rw [hr, login_events]
    rfl

/-- Witness for C2 at concrete inputs: the setter rejects the malformed
token `"bad"`, and a run always opens with the network rate-limit probe. -/
theorem c2_witness :
    token_setter stBase "bad" = Except.error Err.invalidTokenFormat
    ∧ (run { envBase with rateLimitOk := false } stBase).2.head?
        = some Event.netRateLimit :=
  ⟨c2_token_validation_bypassed.1 stBase "bad" rfl,
   c2_token_validation_bypassed.2.2 { envBase with rateLimitOk := false } stBase⟩

/-- Counterexample to C2 as stated: the malformed credential `"bad"` is
stored by the constructor without error, and the operation then reaches
the network (the rate-limit probe is in the trace) and fails with the
authentication error, not with any credential-format error. -/
theorem c2_counterexample :
    tokenMatches "bad" = false
    ∧ (rascalInit "acme/widgets" "payloads/evil.yml" "bad" "abcde").token = "bad"
    ∧ (run { envBase with rateLimitOk := false } stBase).2 = [Event.netRateLimit]
    ∧ (run { envBase with rateLimitOk := false } stBase).1 = Except.error Err.authFailed :=
  ⟨rfl, rfl, rfl, rfl⟩

/-- C3, amended: the `workflow` property setter does reject a payload that
fails to open or to parse as YAML (the YAML error surfacing wrapped in the
outer "Couldn't open workflow file" handler), but `__init__` stores the
raw path in `self._workflow` without invoking that setter and `run` never
parses the payload, so in the GitHub runner an invalid-YAML payload
proceeds through clone, staging and push.  Only the GitLab runner's
`_deploy_pipeline` validates the payload before deploying (its deployment
and branch-creation steps being unimplemented stubs), returning a failed
result. -/
theorem c3_yaml_validation_bypassed :
    (∀ files yamlOk st wf content, files wf = some content → yamlOk content = false →
      workflow_setter files yamlOk st wf = Except.error (Err.couldNotOpenWorkflow true))
    ∧ (∀ target workflow tok suffix,
        (rascalInit target workflow tok suffix).workflow = workflow)
    ∧ (∀ projects files yamlOk target pf cleanup content,
        files pf = some content → yamlOk content = false →
        (run_operation projects true files yamlOk target pf cleanup).1.status = "failed") := by
  refine ⟨?_, ?_, ?_⟩
  · intro files yamlOk st wf content hf hy
    unfold workflow_setter
    rw [hf]
    simp [hy]
  · intro target workflow tok suffix
    rfl
  · intro projects files yamlOk target pf cleanup content hf hy
    unfold run_operation
    cases hv : (validate_target projects true target).1 with
    | error e => rfl
    | ok pid => simp [deploy_pipeline_check, hf, hy]

/-- Witness for C3 at concrete inputs: the setter rejects the concrete
invalid-YAML payload, and the GitLab runner's operation on it fails. -/
theorem c3_witness :
    workflow_setter filesBad yamlRejects stBase "payloads/evil.yml"
        = Except.error (Err.couldNotOpenWorkflow true)
    ∧ (run_operation [("g/p", "42")] true filesBad yamlRejects
        "g/p" "payloads/evil.yml" true).1.status = "failed" :=
  ⟨c3_yaml_validation_bypassed.1 filesBad yamlRejects stBase
      "payloads/evil.yml" "a: [unclosed" rfl rfl,
   c3_yaml_validation_bypassed.2.2 [("g/p", "42")] filesBad yamlRejects
      "g/p" "payloads/evil.yml" true "a: [unclosed" rfl rfl⟩

/-- Counterexample to C3 as stated: with the payload `payloads/evil.yml`
holding invalid YAML (`filesBad`/`yamlRejects`), the GitHub operation does
NOT fail before the clone — its trace contains the workspace creation, the
clone, and the remote branch push (a remote mutation), because `run` never
parses the payload at all. -/
theorem c3_counterexample :
    workflow_setter filesBad yamlRejects stBase "payloads/evil.yml"
        = Except.error (Err.couldNotOpenWorkflow true)
    ∧ Event.tmpDirCreate ∈ (run envBase stBase).2
    ∧ Event.netClone ∈ (run envBase stBase).2
    ∧ Event.netPushBranch ∈ (run envBase stBase).2 := by
  refine ⟨rfl, ?_, ?_, ?_⟩ <;> decide

/-- C4 (confirmed): the observer leaves the run-wait loop on the first
poll returning a run, whatever its status (the outer loop's result is
handed to the completion wait unconditionally), and at that transition the
remote ephemeral branch deletion happens immediately (it is the second
event of the trace, right after the finding poll, before any further
polling); the completion wait returns the run only when its status is
exactly `"completed"`, returns it at the first such observation (a run
already terminal at the first completion-wait poll is returned at once),
and keeps polling on any non-terminal status. -/
theorem c4_observer_state_machine :
    (∀ env st r rest,
      ((wait_for_workflow env st (some r :: rest)).2).take 2
          = [Event.netPollRuns, Event.netDeleteBranch]
        ∧ (wait_for_workflow env st (some r :: rest)).1
            = (completion_wait env st rest).1)
    ∧ (∀ env st rest,
        (wait_for_workflow env st (none :: rest)).1
          = (wait_for_workflow env st rest).1)
    ∧ (∀ env st polls r, (completion_wait env st polls).1 = Except.ok r →
        r.status = "completed")
    ∧ (∀ env st r rest, r.status = "completed" →
        (completion_wait env st (some r :: rest)).1 = Except.ok r)
    ∧ (∀ env st r rest, r.status ≠ "completed" →
        (completion_wait env st (some r :: rest)).1
          = (completion_wait env st rest).1) := by
  refine ⟨?_, ?_, ?_, ?_, ?_⟩
  · intro env st r rest
    exact ⟨rfl, rfl⟩
  · intro env st rest
    rfl
  · intro env st polls r
    induction polls with
    | nil =>
      intro h
      exact absurd h (by simp [completion_wait])
    | cons p rest ih =>
      cases p with
      | none =>
        intro h
        simp [completion_wait] at h
      | some r2 =>
        intro h
        by_cases hc : r2.status == "completed"
        · unfold completion_wait at h
          rw [if_pos hc] at h
          have h' : Except.ok (ε := Err) r2 = Except.ok r := h
          cases h'
          exact beq_iff_eq.mp hc
        · unfold completion_wait at h
          rw [if_neg hc] at h
          exact ih h
  · intro env st r rest hc
    have hb : (r.status == "completed") = true := beq_iff_eq.mpr hc
    unfold completion_wait
    rw [if_pos hb]
  · intro env st r rest hc
    have hb : ¬ ((r.status == "completed") = true) := by
      simpa using hc
    rw [completion_wait_cons_some, if_neg hb]

/-- Witness for C4 at concrete inputs: a completion-wait poll that is
already terminal is returned at once, and a queued poll just continues. -/
theorem c4_witness :
    (completion_wait envBase stBase [some { status := "completed", logs_url := "u" }]).1
        = Except.ok { status := "completed", logs_url := "u" }
    ∧ (completion_wait envBase stBase
        [some { status := "queued", logs_url := "u" },
         some { status := "completed", logs_url := "u" }]).1
        = (completion_wait envBase stBase
            [some { status := "completed", logs_url := "u" }]).1 :=
  ⟨c4_observer_state_machine.2.2.2.1 envBase stBase
      { status := "completed", logs_url := "u" } [] rfl,
   c4_observer_state_machine.2.2.2.2 envBase stBase
      { status := "queued", logs_url := "u" }
      [some { status := "completed", logs_url := "u" }] (by decide)⟩

/-- C5, amended: after staging, the pipeline-definition directory contains
exactly the payload under its base name, regardless of how many files it
held before — but when the directory is ABSENT from the clone,
`shutil.rmtree` (called without `ignore_errors`) raises
`FileNotFoundError`, so staging fails instead of treating the removal as a
no-op. -/
theorem c5_staging_directory :
    (∀ entries payloadBase,
      push_workflow_dir (some entries) payloadBase = Except.ok [payloadBase])
    ∧ (∀ payloadBase,
        push_workflow_dir none payloadBase = Except.error Err.workflowsDirMissing) :=
  ⟨fun _ _ => rfl, fun _ => rfl⟩

/-- Counterexample to C5 as stated: with `.github/workflows/` absent,
staging raises the file-not-found error rather than performing a no-op
removal. -/
theorem c5_counterexample :
    push_workflow_dir none "evil.yml" = Except.error Err.workflowsDirMissing := rfl

/-- C6 (code bug, evaluated at the failing input): for a clone whose head
commit author is Alice, the staging commit's actor is built from
`author.conf_name` / `author.conf_email`, which in GitPython are the
class-level configuration-key constants `"name"` and `"email"` — so the
commit is authored as `name <email>`, NOT as the previous author Alice as
the code's own variable names (`last_author_name`, `last_author_email`)
and the spec intend; the empty-repository half of the claim does hold
(`commitActor` fails rather than defaulting). -/
theorem c6_commit_identity_eval :
    commitActor (some { author := { name := "Alice", email := "alice@example.com" } })
        = Except.ok { name := "name", email := "email" }
    ∧ (Except.ok { name := "name", email := "email" } : Except Err Actor)
        ≠ Except.ok { name := "Alice", email := "alice@example.com" }
    ∧ commitActor none = Except.error Err.noHeadCommit := by
  refine ⟨rfl, ?_, rfl⟩
  decide

/-- C7, amended: when no archive entry matches the `0_.*\.txt$` pattern,
no artifact is written and the completion wait still succeeds (the absence
is non-fatal); when one or more match, exactly the first in enumeration
order is extracted and written to
`{repository-name}-{payload-base-name-truncated-at-its-FIRST-dot}-{unix-timestamp}.txt`
(for base names with at most one dot this equals stripping the extension;
with several dots it strips more). -/
theorem c7_log_collection :
    (∀ repoName wf ts entries,
      entries.filter (fun e => logNameMatches e.1) = [] →
      download_run_logs repoName wf ts entries = none)
    ∧ (∀ repoName wf ts entries m ms,
        entries.filter (fun e => logNameMatches e.1) = m :: ms →
        download_run_logs repoName wf ts entries
          = some (repoName ++ "-" ++ workflowFilename wf ++ "-" ++ toString ts ++ ".txt",
                  m.2))
    ∧ (∀ env st r rest, r.status = "completed" →
        env.zipEntries.filter (fun e => logNameMatches e.1) = [] →
        (completion_wait env st (some r :: rest)).1 = Except.ok r
          ∧ ∀ n, Event.fsWriteArtifact n ∉ (completion_wait env st (some r :: rest)).2) := by
  refine ⟨?_, ?_, ?_⟩
  · intro repoName wf ts entries h
    unfold download_run_logs
    rw [h]
  · intro repoName wf ts entries m ms h
    unfold download_run_logs
    rw [h]
    rfl
  · intro env st r rest hc hz
    have hb : (r.status == "completed") = true := beq_iff_eq.mpr hc
    have hdl : downloadLogsEvents env st = [Event.netDownloadLogs] := by
      unfold downloadLogsEvents download_run_logs
      rw [hz]
    constructor
    · unfold completion_wait
      rw [if_pos hb]
    · intro n hmem
      unfold completion_wait at hmem
      rw [if_pos hb, hdl] at hmem
      simp at hmem

/-- Witness for C7 at concrete inputs: a bundle with no matching entry
yields no artifact; a bundle whose second entry is the only match yields
that entry's bytes under the truncated-name file. -/
theorem c7_witness :
    download_run_logs "widgets" "build.yml" 5 [("readme.md", "R")] = none
    ∧ download_run_logs "widgets" "build.yml" 5
        [("x.bin", "B"), ("0_build.txt", "LOG")] = some ("widgets-build-5.txt", "LOG")
    ∧ (completion_wait { envBase with zipEntries := [] } stBase
        [some { status := "completed", logs_url := "u" }]).1
        = Except.ok { status := "completed", logs_url := "u" } :=
  ⟨c7_log_collection.1 "widgets" "build.yml" 5 [("readme.md", "R")] (by decide),
   c7_log_collection.2.1 "widgets" "build.yml" 5
     [("x.bin", "B"), ("0_build.txt", "LOG")] ("0_build.txt", "LOG") [] (by decide),
   (c7_log_collection.2.2 { envBase with zipEntries := [] } stBase
     { status := "completed", logs_url := "u" } [] rfl (by decide)).1⟩

/-- Counterexample to C7 as stated: for the payload base name
`evil.v2.yml` the written file name truncates at the FIRST dot
(`widgets-evil-...`), which differs from the claim's
"base name with its extension stripped" (`evil.v2`). -/
theorem c7_counterexample :
    download_run_logs "widgets" "evil.v2.yml" 1700000000 [("0_build.txt", "LOGBYTES")]
        = some ("widgets-evil-1700000000.txt", "LOGBYTES")
    ∧ workflowFilename "evil.v2.yml" = "evil"
    ∧ specStripExt (basename "evil.v2.yml") = "evil.v2"
    ∧ ("widgets-evil-1700000000.txt" : String)
        ≠ "widgets-" ++ specStripExt (basename "evil.v2.yml") ++ "-1700000000.txt" := by
  refine ⟨?_, ?_, ?_, ?_⟩ <;> decide

/-- C8, amended: remote branch deletion is invoked at most once per
operation — only the observer's early-deletion step pushes the empty
refspec; the teardown steps after observation (deployment deletion,
workspace release) never delete the branch.  And the deletion itself is
NOT idempotent: deleting a remote ref that is already absent is an error
(git's "remote ref does not exist"), so a second invocation would raise
rather than be a no-op. -/
theorem c8_branch_deletion_once :
    (∀ env st, (run env st).2.count Event.netDeleteBranch ≤ 1)
    ∧ (∀ remoteBranches branch, remoteBranches.contains branch = false →
        remove_remote_branch remoteBranches branch
          = Except.error Err.remoteRefMissing) := by
  constructor
  · intro env st
    have h := seqSteps_count_le Event.netDeleteBranch
        [login env, clone_repository env, push_workflow env st,
         wait_step env st, delete_deployments env, cleanup_step]
    have hsum : ([login env, clone_repository env, push_workflow env st,
        wait_step env st, delete_deployments env, cleanup_step].map
          (fun s => s.2.count Event.netDeleteBranch)).sum ≤ 1 := by
      have h1 : (login env).2.count Event.netDeleteBranch = 0 := by
        rw [login_events]
        rfl
      have h2 : (clone_repository env).2.count Event.netDeleteBranch = 0 := by
        rw [clone_events]
        rfl
      have h3 : (push_workflow env st).2.count Event.netDeleteBranch = 0 := by
        rcases push_workflow_events env st with hp | hp <;> rw [hp] <;> rfl
      have h4 : (wait_step env st).2.count Event.netDeleteBranch ≤ 1 :=
        wait_count_deleteBranch env st env.polls
      have h5 : (delete_deployments env).2.count Event.netDeleteBranch = 0 :=
        List.count_eq_zero.mpr (fun hmem => by
          simp only [delete_deployments, List.mem_cons] at hmem
          rcases hmem with h1 | h1
          · exact Event.noConfusion h1
          · exact deploy_loop_no_deleteBranch env.statusUpdateOk
              env.deleteStatusCode env.deployments h1)
      have h6 : cleanup_step.2.count Event.netDeleteBranch = 0 := rfl
      simp only [List.map_cons, List.map_nil, List.sum_cons, List.sum_nil]
      omega
    exact le_trans h hsum
  · intro remoteBranches branch hc
    have hnot : branch ∉ remoteBranches := by simpa using hc
    unfold remove_remote_branch
    simp [hnot]

/-- Witness for C8 at concrete inputs: a full successful operation deletes
the branch exactly once, and the deletion of an absent ref errors. -/
theorem c8_witness :
    (run envBase stBase).2.count Event.netDeleteBranch ≤ 1
    ∧ remove_remote_branch [] "lint-testing-abcde" = Except.error Err.remoteRefMissing :=
  ⟨c8_branch_deletion_once.1 envBase stBase,
   c8_branch_deletion_once.2 [] "lint-testing-abcde" rfl⟩

/-- Counterexample to C8 as stated: after the first deletion removes the
ref, a second invocation — the "once from teardown" of the claim — raises
the remote-ref-missing error instead of being a no-op; moreover the
teardown steps of `run` (deployment deletion, workspace release) contain
no branch deletion at all, so the claimed second invocation does not even
exist in the code. -/
theorem c8_counterexample :
    remove_remote_branch ["lint-testing-abcde"] "lint-testing-abcde" = Except.ok []
    ∧ remove_remote_branch [] "lint-testing-abcde" = Except.error Err.remoteRefMissing
    ∧ Event.netDeleteBranch ∉ (delete_deployments envBase).2
    ∧ Event.netDeleteBranch ∉ cleanup_step.2 := by
  refine ⟨?_, ?_, ?_, ?_⟩ <;> decide

/-- C9 (confirmed): for a valid credential (the rate-limit probe succeeds)
whose scope set lacks `"repo"` or lacks `"workflow"`, `run` fails with one
of the two insufficient-capability errors raised by `_login`, and every
event of the operation up to that failure (just the rate-limit read probe)
is non-mutating. -/
theorem c9_insufficient_scopes :
    ∀ env st, env.rateLimitOk = true →
      (env.scopes.contains "repo" = false ∨ env.scopes.contains "workflow" = false) →
      (∃ e, (run env st).1 = Except.error e ∧ e.isInsufficientCapabilities = true)
        ∧ ∀ ev ∈ (run env st).2, ev.mutating = false := by
  intro env st hrl hsc
  have hlog : ∃ e, login env = (Except.error e, [Event.netRateLimit])
      ∧ e.isInsufficientCapabilities = true := by
    by_cases hr : env.scopes.contains "repo" = false
    · have hrm : "repo" ∉ env.scopes := by simpa using hr
      refine ⟨Err.repoScopeMissing, ?_, rfl⟩
      unfold login
      rw [hrl]
      simp [hrm]
    · have hr' : env.scopes.contains "repo" = true := by
        cases hcc : env.scopes.contains "repo"
        · exact absurd hcc hr
        · rfl
      have hw : env.scopes.contains "workflow" = false := by
        rcases hsc with h | h
        · exact absurd h hr
        · exact h
      have hrm : "repo" ∈ env.scopes := by simpa using hr'
      have hwm : "workflow" ∉ env.scopes := by simpa using hw
      refine ⟨Err.workflowScopeMissing, ?_, rfl⟩
      unfold login
      rw [hrl]
      simp [hrm, hwm]
  obtain ⟨e, hle, hins⟩ := hlog
  have h1 : (login env).1 = Except.error e := by rw [hle]
  have h2 := seqSteps_cons_error (login env)
      [clone_repository env, push_workflow env st, wait_step env st,
       delete_deployments env, cleanup_step] e h1
  have hrun : run env st = (Except.error e, [Event.netRateLimit]) := by
    have h3 : run env st = (Except.error e, (login env).2) := h2
    rw [h3, hle]
  constructor
  · exact ⟨e, by rw [hrun], hins⟩
  · intro ev hmem
    rw [hrun] at hmem
    simp only [List.mem_singleton] at hmem
    rw [hmem]
    rfl

/-- Witness for C9 at a concrete input: a token granting only the `repo`
scope makes the run fail with an insufficient-capability error after the
single non-mutating probe. -/
theorem c9_witness :
    (∃ e, (run { envBase with scopes := ["repo"] } stBase).1 = Except.error e
        ∧ e.isInsufficientCapabilities = true)
    ∧ ∀ ev ∈ (run { envBase with scopes := ["repo"] } stBase).2,
        ev.mutating = false :=
  c9_insufficient_scopes { envBase with scopes := ["repo"] } stBase rfl
    (Or.inr (by decide))

/-- C10 (confirmed): in the completion-wait loop, a poll tick for which
the platform reports no run (the query returns `None`) immediately raises
the unhandled `AttributeError` from dereferencing `run.status` — the
result is the attribute error, not a typed observation error, and no
further polling happens (the trace of the whole wait from that tick is the
single poll); on a concrete operation whose run disappears from the query
after the branch deletion, `run` surfaces exactly this attribute error. -/
theorem c10_none_poll_attribute_error :
    (∀ env st rest, completion_wait env st (none :: rest)
        = (Except.error Err.attrNoneStatus, [Event.netPollRuns]))
    ∧ (run { envBase with
          polls := [some { status := "queued", logs_url := "u" }, none] } stBase).1
        = Except.error Err.attrNoneStatus := by
  refine ⟨fun _ _ _ => rfl, ?_⟩
  decide
